import Mathlib

/-!
Shallow embedding of the Strava → PostgreSQL ingestion core of the
trail-performance-analytics repository
(`src/ingestion/ingest_strava_postgres.py`) and of the rolling-window
feature derivation (`src/features/build_features.py`), together with
theorems settling the specification claims about them.

Modelling conventions:
- Machine-level details that no claim touches are collapsed: ISO-8601
  start-date strings are represented directly by their epoch value
  (`iso_to_epoch` is the identity on the model's timestamps), numeric
  measurement payloads are `Option Int` (the ingestion code never
  computes with them, it only copies them), `now()` is an explicit
  clock argument, and `str(value)`/`int(value)` round-tripping of the
  cursor value is collapsed to storing the integer itself.
- Python truthiness (`or` defaults, `if not data`) is modelled
  explicitly by dedicated helpers.
- The HTTP world is an oracle: a function from attempt (and page)
  numbers to responses.  `time.sleep` calls are recorded as a list of
  slept durations instead of being performed.
- Unbounded `while True` loops are given explicit fuel; running out of
  fuel returns `none` (the source would still be looping).
- SQL tables are lists of rows; `insert ... on conflict do update`
  replaces the row matching the conflict key in place, or appends.
-/

namespace Trail

deriving instance DecidableEq for Except

/-- Raw Strava activity record as returned by the activities-list
endpoint.  Field `typ` stands for the JSON key `"type"`;
`start_epoch` is the `start_date` ISO string represented by its epoch
value (`none` when the field is null/absent). -/
structure RawActivity where
  id : Int
  name : Option String
  sport_type : Option String
  typ : Option String
  start_epoch : Option Int
  timezone : Option String
  elapsed_time : Option Int
  moving_time : Option Int
  distance : Option Int
  total_elevation_gain : Option Int
  average_speed : Option Int
  max_speed : Option Int
  average_heartrate : Option Int
  max_heartrate : Option Int
  average_watts : Option Int
  max_watts : Option Int
  average_cadence : Option Int
  visibility : Option String
  trainer : Option Bool
  commute : Option Bool
  start_latlng : Option (List (Option Int))
deriving DecidableEq, Repr

/-- Default raw activity: all optional fields absent. -/
def RawActivity.mk0 (id : Int) (start_epoch : Option Int) : RawActivity :=
  ⟨id, none, none, none, start_epoch, none, none, none, none, none, none,
   none, none, none, none, none, none, none, none, none, none⟩

/-- JSON body of an activities-list response: either a JSON array of
raw records, or some other JSON value, of which the model only keeps
its Python truthiness (`jother false` covers `{}`, `null`, `""`, `0`;
`jother true` covers any truthy non-list value). -/
inductive Jx where
  | jlist (recs : List RawActivity)
  | jother (truthy : Bool)
deriving DecidableEq, Repr

/-- Python falsiness of a response body (`if not data`). -/
def Jx.falsy : Jx → Bool
  | .jlist recs => recs.isEmpty
  | .jother truthy => !truthy

/-- HTTP response: status code plus decoded JSON body. -/
structure HttpResp where
  status : Nat
  body : Jx
deriving DecidableEq, Repr

/-- Error taxonomy of the ingestion script.  The source raises
`RuntimeError` everywhere; the spec names the cases, and the model
tags them by raise site: `authError` for a 4xx token refresh,
`providerError` for a non-retryable 4xx from the API, `fetchExhausted`
for "Strava API failed after retries", `protocolError` for
"Unexpected response (expected list)". -/
inductive IngestError where
  | authError (status : Nat)
  | providerError (status : Nat)
  | fetchExhausted
  | protocolError
deriving DecidableEq, Repr

/-- Python `x or default` for an optional string field: falsy (`None`
or `""`) falls through to the default. -/
def pyOrStr (x : Option String) (default : String) : String :=
  match x with
  | none => default
  | some s => if s = "" then default else s

/-- Python `a.get("sport_type") or a.get("type")`. -/
def pyOrOptStr (x y : Option String) : Option String :=
  match x with
  | none => y
  | some s => if s = "" then y else some s

/-- Attempt oracle: the response the HTTP GET would produce on the
n-th attempt (0-based) of one request. -/
abbrev AttemptOracle := Nat → HttpResp

/-- Loop body of `strava_get`: `remaining` attempts left out of
`max_retries`, `attempt` is the current 0-based attempt index,
`sleeps` the backoff durations slept so far.  A 429 or transient 5xx
sleeps `2^attempt` seconds and retries; any other 4xx raises
immediately; otherwise the JSON body is returned. -/
def strava_get_go (resp : AttemptOracle) :
    Nat → Nat → List Nat → Except IngestError Jx × List Nat
  | 0, _, sleeps => (.error .fetchExhausted, sleeps)
  | remaining + 1, attempt, sleeps =>
    let r := resp attempt
    if r.status = 429 then
      strava_get_go resp remaining (attempt + 1) (sleeps ++ [2 ^ attempt])
    else if r.status = 500 ∨ r.status = 502 ∨ r.status = 503 ∨ r.status = 504 then
      strava_get_go resp remaining (attempt + 1) (sleeps ++ [2 ^ attempt])
    else if 400 ≤ r.status then
      (.error (.providerError r.status), sleeps)
    else
      (.ok r.body, sleeps)

/-- Embedding of `strava_get`: run up to `max_retries` attempts,
returning the outcome and the list of backoff sleeps performed. -/
def strava_get (resp : AttemptOracle) (max_retries : Nat) :
    Except IngestError Jx × List Nat :=
  strava_get_go resp max_retries 0 []

/-- Retryable response: rate-limited (429) or transient server error,
exactly the statuses `strava_get` retries on. -/
def retryable (r : HttpResp) : Bool :=
  r.status == 429 || r.status == 500 || r.status == 502 || r.status == 503 || r.status == 504

/-- Page oracle for the activities-list endpoint: given the `after`
and `per_page` query parameters, the page number and the attempt
index, the response the provider would produce. -/
abbrev PageOracle := Int → Int → Nat → Nat → HttpResp

/-- Loop body of `list_activities_since`.  Each iteration issues
`strava_get` (with its 4-attempt bound) for the current page; a falsy
body ends pagination, a non-empty list is appended and the page number
incremented, a truthy non-list raises `protocolError`.  `fuel` bounds
the otherwise unbounded `while True` loop. -/
def list_activities_go (provider : PageOracle) (after_epoch per_page : Int) :
    Nat → Nat → List RawActivity → Option (Except IngestError (List RawActivity))
  | 0, _, _ => none
  | fuel + 1, page, acc =>
    match (strava_get (provider after_epoch per_page page) 4).1 with
    | .error e => some (.error e)
    | .ok body =>
      if body.falsy then some (.ok acc)
      else
        match body with
        | .jlist recs => list_activities_go provider after_epoch per_page fuel (page + 1) (acc ++ recs)
        | .jother _ => some (.error .protocolError)

/-- Embedding of `list_activities_since`: pages start at 1 and are
concatenated until a falsy page body ends pagination. -/
def list_activities_since (provider : PageOracle) (after_epoch per_page : Int)
    (fuel : Nat) : Option (Except IngestError (List RawActivity)) :=
  list_activities_go provider after_epoch per_page fuel 1 []

/-- Generic embedding of `insert ... on conflict do update`: replace
the row matching the conflict key in place, or append when no row
matches. -/
def upsertBy {α : Type} (hit : α → Bool) (row : α) (t : List α) : List α :=
  if t.any hit then t.map (fun r => if hit r then row else r) else t ++ [row]

/-- Row of the `ingestion_state` table.  The source stores the cursor
as `str(value)` and reads it back with `int(...)`; the model stores
the integer itself. -/
structure StateRow where
  athlete_id : Int
  source : String
  key : String
  value : Int
  updated_at : Nat
deriving DecidableEq, Repr

/-- Athlete profile JSON as returned by the `/athlete` endpoint. -/
structure AthleteData where
  id : Int
  firstname : Option String
  lastname : Option String
  city : Option String
  country : Option String
deriving DecidableEq, Repr

/-- Row of the `athletes` table. -/
structure AthleteRow where
  athlete_id : Int
  firstname : Option String
  lastname : Option String
  city : Option String
  country : Option String
  updated_at : Nat
  raw : AthleteData
deriving DecidableEq, Repr

/-- Row of the `strava_tokens` table. -/
structure TokenRow where
  athlete_id : Int
  access_token : String
  refresh_token : String
  expires_at : Int
  scope : Option String
  updated_at : Nat
deriving DecidableEq, Repr

/-- Row of the `activities` table (normalized columns plus the raw
payload). -/
structure ActivityRow where
  activity_id : Int
  athlete_id : Int
  name : Option String
  sport_type : Option String
  start_date : Option Int
  timezone : Option String
  elapsed_time : Option Int
  moving_time : Option Int
  distance_m : Option Int
  total_elevation_gain_m : Option Int
  average_speed_mps : Option Int
  max_speed_mps : Option Int
  average_heartrate : Option Int
  max_heartrate : Option Int
  average_watts : Option Int
  max_watts : Option Int
  average_cadence : Option Int
  visibility : Option String
  trainer : Option Bool
  commute : Option Bool
  start_lat : Option Int
  start_lng : Option Int
  updated_at : Nat
  raw : RawActivity
deriving DecidableEq, Repr

/-- State of the PostgreSQL database, restricted to the four tables
the ingestion script touches. -/
structure DB where
  athletes : List AthleteRow
  tokens : List TokenRow
  activities : List ActivityRow
  state : List StateRow
deriving DecidableEq, Repr

/-- Empty database. -/
def DB.empty : DB := ⟨[], [], [], []⟩

/-- Conflict key of `ingestion_state` specialised to the
`(athlete_id, 'strava', 'last_after_epoch')` triple the script uses. -/
def stateHit (athlete_id : Int) (r : StateRow) : Bool :=
  r.athlete_id == athlete_id && r.source == "strava" && r.key == "last_after_epoch"

/-- Embedding of `db_get_last_after_epoch`: read the cursor for
`(athlete_id, 'strava', 'last_after_epoch')`, defaulting when no row
is stored. -/
def db_get_last_after_epoch (db : DB) (athlete_id after_default : Int) : Int :=
  match db.state.find? (stateHit athlete_id) with
  | some r => r.value
  | none => after_default

/-- Embedding of `db_set_last_after_epoch`: upsert the cursor row. -/
def db_set_last_after_epoch (db : DB) (athlete_id value : Int) (now : Nat) : DB :=
  { db with state :=
      upsertBy (stateHit athlete_id) ⟨athlete_id, "strava", "last_after_epoch", value, now⟩ db.state }

/-- Embedding of `db_upsert_athlete`: upsert the profile row keyed by
`athlete_id` and return that id. -/
def db_upsert_athlete (db : DB) (athlete : AthleteData) (now : Nat) : DB × Int :=
  let row : AthleteRow :=
    ⟨athlete.id, athlete.firstname, athlete.lastname, athlete.city, athlete.country, now, athlete⟩
  ({ db with athletes := upsertBy (fun r => r.athlete_id == athlete.id) row db.athletes },
   athlete.id)

/-- Embedding of `db_upsert_tokens`: upsert the token row keyed by
`athlete_id`. -/
def db_upsert_tokens (db : DB) (athlete_id : Int) (access_token refresh_token : String)
    (expires_at : Int) (scope : Option String) (now : Nat) : DB :=
  { db with tokens :=
      (upsertBy (fun r => r.athlete_id == athlete_id)
        ⟨athlete_id, access_token, refresh_token, expires_at, scope, now⟩ db.tokens) }

/-- Embedding of `db_get_refresh_token`: `row[0] if row and row[0]
else None` — an empty stored string is reported as absent. -/
def db_get_refresh_token (db : DB) (athlete_id : Int) : Option String :=
  match db.tokens.find? (fun r => r.athlete_id == athlete_id) with
  | some row => if row.refresh_token = "" then none else some row.refresh_token
  | none => none

/-- Raw refresh-token column of the stored token row for an athlete
(no truthiness filtering, unlike `db_get_refresh_token`). -/
def storedRefreshToken (db : DB) (athlete_id : Int) : Option String :=
  (db.tokens.find? (fun r => r.athlete_id == athlete_id)).map (·.refresh_token)

/-- Python `(a.get("start_latlng") or [None, None])` followed by
`(start_latlng + [None, None])[:2]`. -/
def startLatLng (a : RawActivity) : Option Int × Option Int :=
  let l := match a.start_latlng with
    | none => [none, none]
    | some l => if l.isEmpty then [none, none] else l
  (l.getD 0 none, l.getD 1 none)

/-- Normalized `activities` row built from a raw record, as in the
VALUES list of `db_upsert_activity`. -/
def normalizeActivity (athlete_id : Int) (a : RawActivity) (now : Nat) : ActivityRow :=
  { activity_id := a.id
    athlete_id := athlete_id
    name := a.name
    sport_type := pyOrOptStr a.sport_type a.typ
    start_date := a.start_epoch
    timezone := a.timezone
    elapsed_time := a.elapsed_time
    moving_time := a.moving_time
    distance_m := a.distance
    total_elevation_gain_m := a.total_elevation_gain
    average_speed_mps := a.average_speed
    max_speed_mps := a.max_speed
    average_heartrate := a.average_heartrate
    max_heartrate := a.max_heartrate
    average_watts := a.average_watts
    max_watts := a.max_watts
    average_cadence := a.average_cadence
    visibility := a.visibility
    trainer := a.trainer
    commute := a.commute
    start_lat := (startLatLng a).1
    start_lng := (startLatLng a).2
    updated_at := now
    raw := a }

/-- Embedding of `db_upsert_activity`: upsert the normalized row keyed
by `activity_id` and return the record's start time as epoch seconds
(`none` when absent). -/
def db_upsert_activity (db : DB) (athlete_id : Int) (a : RawActivity) (now : Nat) :
    DB × Option Int :=
  ({ db with activities :=
      upsertBy (fun r => r.activity_id == a.id) (normalizeActivity athlete_id a now) db.activities },
   a.start_epoch)

/-- Token-refresh response JSON (`refresh_token` may be absent/null,
represented by `none`, or present, possibly the empty string). -/
structure TokenData where
  access_token : String
  refresh_token : Option String
  expires_at : Option Int
  scope : Option String
deriving DecidableEq, Repr

/-- External world seen by one athlete's sync: the outcome of the
token-refresh POST (`.error status` for a 4xx → `AuthError`), the
decoded outcome of the `/athlete` GET, and the page oracle of the
activities-list endpoint. -/
structure AthleteEnv where
  tokenResp : Except Nat TokenData
  athleteResp : Except IngestError AthleteData
  provider : PageOracle

/-- Summary dict returned by `ingest_one_athlete`. -/
structure Summary where
  athlete_id : Int
  after_epoch : Int
  advanced_to : Int
  retrieved : Nat
  upserted : Nat
  expires_at : Int
  scope : Option String
  used_refresh_token_changed : Bool
deriving DecidableEq, Repr

/-- The `for a in activities` upsert loop of `ingest_one_athlete`:
threads the database, the running `max_epoch` and the `upserted`
counter. -/
def upsertAll (db : DB) (athlete_id : Int) (as : List RawActivity) (now : Nat)
    (max_epoch : Int) (upserted : Nat) : DB × Int × Nat :=
  match as with
  | [] => (db, max_epoch, upserted)
  | a :: rest =>
    let p := db_upsert_activity db athlete_id a now
    let me := match p.2 with
      | some e => max max_epoch e
      | none => max_epoch
    upsertAll p.1 athlete_id rest now me (upserted + 1)

/-- The `max_epoch` value produced by the upsert loop when started at
`start`: the maximum of `start` and all resolvable start epochs. -/
def maxEpochFrom (start : Int) : List RawActivity → Int
  | [] => start
  | a :: rest =>
    maxEpochFrom (match a.start_epoch with
      | some e => max start e
      | none => start) rest

/-- Writes of `ingest_one_athlete` performed before the fetch: upsert
the athlete profile, then the token set (with the Python-`or` choice
of refresh token). -/
def ingest_pre (db : DB) (td : TokenData) (athlete : AthleteData) (refresh_token : String)
    (now : Nat) : DB :=
  db_upsert_tokens (db_upsert_athlete db athlete now).1 athlete.id td.access_token
    (pyOrStr td.refresh_token refresh_token) (td.expires_at.getD 0) td.scope now

/-- Post-fetch phase of `ingest_one_athlete`: upsert every fetched
activity, then advance the cursor to `max_epoch - 60` only when
`max_epoch > after_epoch`, and build the summary dict. -/
def ingest_post (db2 : DB) (athlete_id after_epoch : Int) (activities : List RawActivity)
    (now : Nat) (expires_at : Int) (scope : Option String) (changed : Bool) : DB × Summary :=
  let r := upsertAll db2 athlete_id activities now after_epoch 0
  let adv := if after_epoch < r.2.1 then
      (db_set_last_after_epoch r.1 athlete_id (r.2.1 - 60) now, r.2.1 - 60)
    else (r.1, after_epoch)
  (adv.1,
   { athlete_id := athlete_id
     after_epoch := after_epoch
     advanced_to := adv.2
     retrieved := activities.length
     upserted := r.2.2
     expires_at := expires_at
     scope := scope
     used_refresh_token_changed := changed })

/-- Embedding of `ingest_one_athlete`: refresh the token, fetch the
athlete profile, persist profile and tokens, read the cursor, fetch
all newer activities, upsert them, advance the cursor with the 60 s
margin, and return the updated database plus the summary.  `none`
models the non-terminating fetch loop running out of fuel.  The
athlete-id-hint mismatch check only logs a warning in the source and
has no effect on the result. -/
def ingest_one_athlete (db : DB) (env : AthleteEnv) (athlete_id_hint : Option Int)
    (refresh_token : String) (per_page after_default : Int) (now fuel : Nat) :
    Option (Except IngestError (DB × Summary)) :=
  match env.tokenResp with
  | .error status => some (.error (.authError status))
  | .ok td =>
    match env.athleteResp with
    | .error e => some (.error e)
    | .ok athlete =>
      let db2 := ingest_pre db td athlete refresh_token now
      let after_epoch := db_get_last_after_epoch db2 athlete.id after_default
      match list_activities_since env.provider after_epoch per_page fuel with
      | none => none
      | some (.error e) => some (.error e)
      | some (.ok activities) =>
        some (.ok (ingest_post db2 athlete.id after_epoch activities now
          (td.expires_at.getD 0) td.scope (pyOrStr td.refresh_token refresh_token != refresh_token)))

/-- One entry of the `targets` list of `main`: the optional athlete-id
hint, the refresh token to use, and the external world for this
athlete's sync. -/
structure Target where
  hint : Option Int
  refresh_token : String
  env : AthleteEnv

/-- Embedding of the per-athlete loop of `main`.  The try/except
wraps the loop body for *every* selection mode (single athlete by id,
bootstrap refresh token, or `--all`): on success the transaction is
committed and the summary appended, on any ingestion error the
transaction is rolled back (the committed database is kept unchanged),
the failure is only logged, and the loop proceeds to the next target.
Returns the committed database and the list of summaries of the
successful athletes. -/
def process_targets (db : DB) (targets : List Target) (per_page after_default : Int)
    (now fuel : Nat) : Option (DB × List Summary) :=
  match targets with
  | [] => some (db, [])
  | t :: rest =>
    match ingest_one_athlete db t.env t.hint t.refresh_token per_page after_default now fuel with
    | none => none
    | some (.error _) => process_targets db rest per_page after_default now fuel
    | some (.ok (db1, s)) =>
      match process_targets db1 rest per_page after_default now fuel with
      | none => none
      | some (dbf, ss) => some (dbf, s :: ss)

/-- Row of the `base` CTE of `FEATURE_SQL`: activities with a non-null
start date, with the measurement columns the feature job reads. -/
structure BaseRow where
  activity_id : Int
  athlete_id : Int
  start_date : Int
  moving_time_s : Option Int
  distance_m : Option Int
  elevation_gain_m : Option Int
deriving DecidableEq, Repr

/-- The `base` CTE: select from `activities` where `start_date is not
null`. -/
def baseRows (acts : List ActivityRow) : List BaseRow :=
  acts.filterMap (fun r =>
    match r.start_date with
    | none => none
    | some sd =>
      some ⟨r.activity_id, r.athlete_id, sd, r.moving_time, r.distance_m, r.total_elevation_gain_m⟩)

/-- SQL `SUM` aggregate semantics over nullable integers: `NULL` on an
empty or all-`NULL` multiset, otherwise the sum of the non-`NULL`
values. -/
def sqlSum (l : List (Option Int)) : Option Int :=
  let vs := l.filterMap id
  if vs.isEmpty then none else some (vs.foldl (· + ·) 0)

/-- Seven days in seconds (`interval '7 days'` against epoch-second
order keys). -/
def sevenDays : Int := 7 * 86400

/-- Window frame of `partition by athlete_id order by start_date range
between interval windowSecs preceding and current row` evaluated at
row `r`: all rows of `r`'s partition whose order key lies in
`[r.start_date - windowSecs, r.start_date]` (RANGE mode includes all
peers of the current row). -/
def windowFrame (rows : List BaseRow) (r : BaseRow) (windowSecs : Int) : List BaseRow :=
  rows.filter (fun x =>
    x.athlete_id == r.athlete_id &&
    decide (r.start_date - windowSecs ≤ x.start_date) &&
    decide (x.start_date ≤ r.start_date))

/-- The `dist_7d_m` window aggregate of `FEATURE_SQL` at row `r`. -/
def dist_7d_m (rows : List BaseRow) (r : BaseRow) : Option Int :=
  sqlSum ((windowFrame rows r sevenDays).map (·.distance_m))

/-- The `elev_7d_m` window aggregate of `FEATURE_SQL` at row `r`. -/
def elev_7d_m (rows : List BaseRow) (r : BaseRow) : Option Int :=
  sqlSum ((windowFrame rows r sevenDays).map (·.elevation_gain_m))

/-- The `time_7d_s` window aggregate of `FEATURE_SQL` at row `r`. -/
def time_7d_s (rows : List BaseRow) (r : BaseRow) : Option Int :=
  sqlSum ((windowFrame rows r sevenDays).map (·.moving_time_s))

/-- Rolling 7-day sum as the specification words it: the sum of a
measurement over exactly the given athlete's activities whose start
time lies in `[T - 7 days, T]`, inclusive of `T`. -/
def specRolling7 (acts : List ActivityRow) (athlete T : Int)
    (measure : ActivityRow → Option Int) : Option Int :=
  sqlSum ((acts.filter (fun x =>
    x.athlete_id == athlete &&
    (match x.start_date with
     | some s => decide (T - sevenDays ≤ s) && decide (s ≤ T)
     | none => false))).map measure)

/-! Concrete scenarios used by witnesses and counterexamples. -/

/-- Scenario database for C1: athlete 7 has a stored cursor of 1000. -/
def c1_db : DB := { DB.empty with state := [⟨7, "strava", "last_after_epoch", 1000, 0⟩] }

/-- Scenario world for C1: one new activity starting at epoch 1001,
one second past the cursor. -/
def c1_env : AthleteEnv :=
  { tokenResp := .ok ⟨"tok", some "rt2", some 100, some "read"⟩
    athleteResp := .ok ⟨7, some "A", none, none, none⟩
    provider := fun _ _ page _ =>
      if page = 1 then ⟨200, .jlist [RawActivity.mk0 11 (some 1001)]⟩ else ⟨200, .jlist []⟩ }

/-- Scenario database for C2: athlete 7 has a stored cursor of 1000. -/
def c2_db : DB := { DB.empty with state := [⟨7, "strava", "last_after_epoch", 1000, 0⟩] }

/-- Scenario world for C2: two new activities starting at epochs 1050
and 1200. -/
def c2_env : AthleteEnv :=
  { tokenResp := .ok ⟨"tok", some "rt2", some 100, some "read"⟩
    athleteResp := .ok ⟨7, some "A", none, none, none⟩
    provider := fun _ _ page _ =>
      if page = 1 then
        ⟨200, .jlist [RawActivity.mk0 11 (some 1050), RawActivity.mk0 12 (some 1200)]⟩
      else ⟨200, .jlist []⟩ }

/-- Scenario raw record for C3, first fetch. -/
def c3_a : RawActivity :=
  { RawActivity.mk0 77 (some 5000) with name := some "run", distance := some 9000 }

/-- Scenario raw record for C3, re-fetch of the same external id with
changed fields. -/
def c3_a2 : RawActivity :=
  { RawActivity.mk0 77 (some 5000) with name := some "trail run", distance := some 9100 }

/-- Scenario attempt oracle for C4: HTTP 429 twice, success on the
third attempt. -/
def c4_resp : AttemptOracle := fun n =>
  if n < 2 then ⟨429, .jother false⟩
  else ⟨200, .jlist [RawActivity.mk0 21 (some 500), RawActivity.mk0 22 none]⟩

/-- Scenario attempt oracle for C4: every attempt is a transient 503. -/
def c4_resp503 : AttemptOracle := fun _ => ⟨503, .jother false⟩

/-- Scenario attempt oracle for C4: a 429 on the first attempt, then
a 501 — a 5xx status outside the code's retry set. -/
def c4_resp501 : AttemptOracle := fun n =>
  if n = 0 then ⟨429, .jother false⟩ else ⟨501, .jother false⟩

/-- Scenario page contents for C8: one non-empty page. -/
def c8_pages : Nat → List RawActivity
  | 1 => [RawActivity.mk0 41 (some 5)]
  | _ => []

/-- Scenario page oracle for C8: page 1 is a non-empty list, page 2
onwards a truthy non-list body. -/
def c8_provider_truthy : PageOracle := fun _ _ page _ =>
  if page < 2 then ⟨200, .jlist (c8_pages page)⟩ else ⟨200, .jother true⟩

/-- Scenario page oracle for C8: page 1 is a non-empty list, page 2
onwards a falsy non-list body (an empty dict). -/
def c8_provider_falsy : PageOracle := fun _ _ page _ =>
  if page < 2 then ⟨200, .jlist (c8_pages page)⟩ else ⟨200, .jother false⟩

/-- Scenario page contents for C5: two non-empty pages, then an empty
page. -/
def c5_pages : Nat → List RawActivity
  | 1 => [RawActivity.mk0 31 (some 10), RawActivity.mk0 32 (some 20)]
  | 2 => [RawActivity.mk0 33 (some 30)]
  | _ => []

/-- Scenario page oracle for C5 built from `c5_pages`, succeeding on
every first attempt. -/
def c5_provider : PageOracle := fun _ _ page _ => ⟨200, .jlist (c5_pages page)⟩

/-- Scenario target for the C6 counterexample: the token refresh
fails with HTTP 401. -/
def c6_target : Target :=
  ⟨some 7, "rt",
   { tokenResp := .error 401
     athleteResp := .error .protocolError
     provider := fun _ _ _ _ => ⟨200, .jlist []⟩ }⟩

/-- Scenario target for the C6 witness: the athlete fetch fails with
a provider error. -/
def c6_target2 : Target :=
  ⟨none, "rt",
   { tokenResp := .ok ⟨"tok", none, some 100, none⟩
     athleteResp := .error (.providerError 403)
     provider := fun _ _ _ _ => ⟨200, .jlist []⟩ }⟩

/-- Scenario database for C6/C7: athlete 8 already has a profile row. -/
def c7_db : DB := DB.empty

/-- Athlete X of the C7 scenario: fails at token refresh. -/
def c7_tX : Target :=
  ⟨some 7, "rtX",
   { tokenResp := .error 400
     athleteResp := .error .protocolError
     provider := fun _ _ _ _ => ⟨200, .jlist []⟩ }⟩

/-- Athlete Y of the C7 scenario: succeeds with one activity at epoch
2000. -/
def c7_tY : Target :=
  ⟨some 8, "rtY",
   { tokenResp := .ok ⟨"tokY", some "rtY2", some 100, none⟩
     athleteResp := .ok ⟨8, some "Y", none, none, none⟩
     provider := fun _ _ page _ =>
       if page = 1 then ⟨200, .jlist [RawActivity.mk0 91 (some 2000)]⟩ else ⟨200, .jlist []⟩ }⟩

/-- Scenario activity table for C9: two athletes with activities
inside and outside the 7-day window ending at epoch 700000. -/
def c9_acts : List ActivityRow :=
  [ normalizeActivity 1 { RawActivity.mk0 101 (some 700000) with
      distance := some 10, total_elevation_gain := some 3, moving_time := some 60 } 0
  , normalizeActivity 1 { RawActivity.mk0 102 (some 200000) with
      distance := some 7, total_elevation_gain := some 2, moving_time := some 50 } 0
  , normalizeActivity 1 { RawActivity.mk0 103 (some 95000) with
      distance := some 100, total_elevation_gain := some 40, moving_time := some 500 } 0
  , normalizeActivity 2 { RawActivity.mk0 104 (some 650000) with
      distance := some 1000, total_elevation_gain := some 400, moving_time := some 5000 } 0
  , normalizeActivity 1 (RawActivity.mk0 105 none) 0 ]

/-- Scenario database for C10: athlete 7 has a stored token row with
refresh token "rt". -/
def c10_db : DB :=
  { DB.empty with tokens := [⟨7, "old-access", "rt", 50, none, 0⟩] }

/-- Scenario world for C10: the token-refresh response carries no
refresh token (absent/null field). -/
def c10_env : AthleteEnv :=
  { tokenResp := .ok ⟨"tok-new", none, some 100, some "read"⟩
    athleteResp := .ok ⟨7, some "A", none, none, none⟩
    provider := fun _ _ _ _ => ⟨200, .jlist []⟩ }

/-- Ownership fact tracked through the upsert loop: the activities
table has a row with the given external id owned by the given
athlete. -/
def hasOwned (db : DB) (activity_id athlete_id : Int) : Prop :=
  ∃ row ∈ db.activities, row.activity_id = activity_id ∧ row.athlete_id = athlete_id

/-! Generic lemmas about the upsert embedding. -/

theorem upsertBy_any_self {α : Type} (hit : α → Bool) (row : α) (t : List α)
    (h : hit row = true) : (upsertBy hit row t).any hit = true := by
  unfold upsertBy
  split
  · next hany =>
    rcases List.any_eq_true.mp hany with ⟨r, hr, hhit⟩
    exact List.any_eq_true.mpr ⟨row, List.mem_map.mpr ⟨r, hr, by simp [hhit]⟩, h⟩
  · exact List.any_eq_true.mpr ⟨row, List.mem_append_right _ (List.mem_singleton.mpr rfl), h⟩

theorem length_upsertBy_of_any {α : Type} (hit : α → Bool) (row : α) (t : List α)
    (h : t.any hit = true) : (upsertBy hit row t).length = t.length := by
  unfold upsertBy
  rw [if_pos h]
  exact List.length_map _ _

theorem find?_map_replace {α : Type} (hit : α → Bool) (row : α) (t : List α)
    (hrow : hit row = true) (h : t.any hit = true) :
    (t.map (fun r => if hit r then row else r)).find? hit = some row := by
  induction t with
  | nil => simp at h
  | cons hd tl ih =>
    by_cases hhd : hit hd = true
    · simp [List.find?, hhd, hrow]
    · have htl : tl.any hit = true := by
        rcases List.any_eq_true.mp h with ⟨r, hr, hhit⟩
        rcases List.mem_cons.mp hr with rfl | hr
        · exact absurd hhit hhd
        · exact List.any_eq_true.mpr ⟨r, hr, hhit⟩
      simp only [List.map_cons, if_neg hhd, List.find?]
      rw [Bool.eq_false_iff.mpr hhd]
      exact ih htl

theorem find?_upsertBy {α : Type} (hit : α → Bool) (row : α) (t : List α)
    (hrow : hit row = true) : (upsertBy hit row t).find? hit = some row := by
  unfold upsertBy
  split
  · next hany => exact find?_map_replace hit row t hrow hany
  · next hany =>
    induction t with
    | nil => simp [List.find?, hrow]
    | cons hd tl ih =>
      have hhd : hit hd = false := by
        by_contra hc
        exact hany (List.any_eq_true.mpr ⟨hd, List.mem_cons_self hd tl, by simpa using hc⟩)
      have htl : ¬ tl.any hit = true := by
        intro hc
        rcases List.any_eq_true.mp hc with ⟨r, hr, hhit⟩
        exact hany (List.any_eq_true.mpr ⟨r, List.mem_cons_of_mem hd hr, hhit⟩)
      simp only [List.cons_append, List.find?]
      rw [hhd]
      exact ih htl

theorem countP_map_replace {α : Type} (hit : α → Bool) (row : α) (t : List α)
    (hrow : hit row = true) :
    (t.map (fun r => if hit r then row else r)).countP hit = t.countP hit := by
  induction t with
  | nil => rfl
  | cons hd tl ih =>
    by_cases hhd : hit hd = true
    · rw [List.map_cons, if_pos hhd, List.countP_cons, List.countP_cons, ih, hrow, hhd]
    · rw [List.map_cons, if_neg hhd, List.countP_cons, List.countP_cons, ih]

theorem countP_upsertBy_of_any {α : Type} (hit : α → Bool) (row : α) (t : List α)
    (hrow : hit row = true) (h : t.any hit = true) :
    (upsertBy hit row t).countP hit = t.countP hit := by
  unfold upsertBy
  rw [if_pos h]
  exact countP_map_replace hit row t hrow

theorem mem_upsertBy_self {α : Type} (hit : α → Bool) (row : α) (t : List α) :
    row ∈ upsertBy hit row t := by
  unfold upsertBy
  split
  · next hany =>
    rcases List.any_eq_true.mp hany with ⟨r, hr, hhit⟩
    exact List.mem_map.mpr ⟨r, hr, by simp [hhit]⟩
  · exact List.mem_append_right _ (List.mem_singleton.mpr rfl)

/-! Component-preservation lemmas: each writer only touches its own
table. -/

theorem state_db_upsert_athlete (db : DB) (athlete : AthleteData) (now : Nat) :
    (db_upsert_athlete db athlete now).1.state = db.state := rfl

theorem state_db_upsert_tokens (db : DB) (aid : Int) (at_ rt : String) (ea : Int)
    (sc : Option String) (now : Nat) :
    (db_upsert_tokens db aid at_ rt ea sc now).state = db.state := rfl

theorem state_db_upsert_activity (db : DB) (aid : Int) (a : RawActivity) (now : Nat) :
    (db_upsert_activity db aid a now).1.state = db.state := rfl

theorem tokens_db_upsert_activity (db : DB) (aid : Int) (a : RawActivity) (now : Nat) :
    (db_upsert_activity db aid a now).1.tokens = db.tokens := rfl

theorem tokens_db_set_last_after_epoch (db : DB) (aid v : Int) (now : Nat) :
    (db_set_last_after_epoch db aid v now).tokens = db.tokens := rfl

theorem activities_db_set_last_after_epoch (db : DB) (aid v : Int) (now : Nat) :
    (db_set_last_after_epoch db aid v now).activities = db.activities := rfl

theorem db_get_last_after_epoch_congr {db1 db2 : DB} (h : db1.state = db2.state)
    (aid ad : Int) : db_get_last_after_epoch db1 aid ad = db_get_last_after_epoch db2 aid ad := by
  unfold db_get_last_after_epoch
  rw [h]

theorem stateHit_self (aid v : Int) (now : Nat) :
    stateHit aid (⟨aid, "strava", "last_after_epoch", v, now⟩ : StateRow) = true := by
  simp [stateHit]

theorem db_get_after_set (db : DB) (aid v ad : Int) (now : Nat) :
    db_get_last_after_epoch (db_set_last_after_epoch db aid v now) aid ad = v := by
  unfold db_get_last_after_epoch db_set_last_after_epoch
  simp only
  rw [find?_upsertBy _ _ _ (stateHit_self aid v now)]

/-! Lemmas about the activity upsert loop. -/

theorem upsertAll_state (db : DB) (aid : Int) (as : List RawActivity) (now : Nat)
    (m : Int) (u : Nat) : (upsertAll db aid as now m u).1.state = db.state := by
  induction as generalizing db m u with
  | nil => rfl
  | cons a rest ih =>
    unfold upsertAll
    rw [ih]
    rfl

theorem upsertAll_tokens (db : DB) (aid : Int) (as : List RawActivity) (now : Nat)
    (m : Int) (u : Nat) : (upsertAll db aid as now m u).1.tokens = db.tokens := by
  induction as generalizing db m u with
  | nil => rfl
  | cons a rest ih =>
    unfold upsertAll
    rw [ih]
    rfl

theorem upsertAll_max (db : DB) (aid : Int) (as : List RawActivity) (now : Nat)
    (m : Int) (u : Nat) : (upsertAll db aid as now m u).2.1 = maxEpochFrom m as := by
  induction as generalizing db m u with
  | nil => rfl
  | cons a rest ih =>
    unfold upsertAll maxEpochFrom
    rw [ih]
    rfl

theorem maxEpochFrom_le (m : Int) (as : List RawActivity) : m ≤ maxEpochFrom m as := by
  induction as generalizing m with
  | nil => exact le_refl m
  | cons a rest ih =>
    unfold maxEpochFrom
    calc m ≤ (match a.start_epoch with
              | some e => max m e
              | none => m) := by
            cases a.start_epoch with
            | none => exact le_refl m
            | some e => exact le_max_left m e
    _ ≤ _ := ih _

theorem maxEpochFrom_mono {m m' : Int} (h : m ≤ m') (as : List RawActivity) :
    maxEpochFrom m as ≤ maxEpochFrom m' as := by
  induction as generalizing m m' with
  | nil => exact h
  | cons a rest ih =>
    unfold maxEpochFrom
    apply ih
    cases a.start_epoch with
    | none => exact h
    | some e => exact max_le_max h (le_refl e)

theorem maxEpochFrom_upper (m : Int) (as : List RawActivity) (a : RawActivity)
    (ha : a ∈ as) (e : Int) (he : a.start_epoch = some e) : e ≤ maxEpochFrom m as := by
  induction as generalizing m with
  | nil => simp at ha
  | cons b rest ih =>
    rcases List.mem_cons.mp ha with rfl | hb
    · unfold maxEpochFrom
      rw [he]
      calc e ≤ max m e := le_max_right m e
      _ ≤ _ := maxEpochFrom_le _ rest
    · unfold maxEpochFrom
      exact ih _ hb

theorem maxEpochFrom_attained (m : Int) (as : List RawActivity) :
    maxEpochFrom m as = m ∨ ∃ a ∈ as, a.start_epoch = some (maxEpochFrom m as) := by
  induction as generalizing m with
  | nil => exact Or.inl rfl
  | cons a rest ih =>
    unfold maxEpochFrom
    cases he : a.start_epoch with
    | none =>
      rcases ih m with h | ⟨b, hb, hbe⟩
      · exact Or.inl h
      · exact Or.inr ⟨b, List.mem_cons_of_mem a hb, hbe⟩
    | some e =>
      rcases ih (max m e) with h | ⟨b, hb, hbe⟩
      · rcases max_cases m e with ⟨hmax, _⟩ | ⟨hmax, _⟩
        · exact Or.inl (h.trans hmax)
        · exact Or.inr ⟨a, List.mem_cons_self a rest, by rw [he, h, hmax]⟩
      · exact Or.inr ⟨b, List.mem_cons_of_mem a hb, hbe⟩

theorem hasOwned_upsert_self (db : DB) (aid : Int) (a : RawActivity) (now : Nat) :
    hasOwned (db_upsert_activity db aid a now).1 a.id aid := by
  refine ⟨normalizeActivity aid a now, ?_, rfl, rfl⟩
  exact mem_upsertBy_self _ _ _

theorem hasOwned_upsert_mono {db : DB} {K aid : Int} (h : hasOwned db K aid)
    (a : RawActivity) (now : Nat) :
    hasOwned (db_upsert_activity db aid a now).1 K aid := by
  rcases h with ⟨row, hrow, hK, hA⟩
  unfold db_upsert_activity upsertBy
  simp only
  split
  · refine ⟨if row.activity_id == a.id then normalizeActivity aid a now else row,
      List.mem_map.mpr ⟨row, hrow, rfl⟩, ?_⟩
    by_cases hc : row.activity_id == a.id
    · have hids : row.activity_id = a.id := by simpa using hc
      rw [if_pos hc]
      exact ⟨show a.id = K by rw [← hids]; exact hK, rfl⟩
    · rw [if_neg hc]
      exact ⟨hK, hA⟩
  · exact ⟨row, List.mem_append_left _ hrow, hK, hA⟩

theorem upsertAll_hasOwned_mono {db : DB} {K aid : Int} (h : hasOwned db K aid)
    (as : List RawActivity) (now : Nat) (m : Int) (u : Nat) :
    hasOwned (upsertAll db aid as now m u).1 K aid := by
  induction as generalizing db m u with
  | nil => exact h
  | cons a rest ih =>
    unfold upsertAll
    apply ih
    exact hasOwned_upsert_mono h a now

theorem upsertAll_hasOwned (db : DB) (aid : Int) (as : List RawActivity) (now : Nat)
    (m : Int) (u : Nat) (a : RawActivity) (ha : a ∈ as) :
    hasOwned (upsertAll db aid as now m u).1 a.id aid := by
  induction as generalizing db m u with
  | nil => simp at ha
  | cons b rest ih =>
    unfold upsertAll
    rcases List.mem_cons.mp ha with rfl | hb
    · exact upsertAll_hasOwned_mono (hasOwned_upsert_self db aid a now) rest now _ _
    · exact ih _ _ _ hb

/-! Characterisation of a successful `ingest_one_athlete` run. -/

theorem ingest_ok_inv {db : DB} {env : AthleteEnv} {hint : Option Int} {rt : String}
    {pp ad : Int} {now fuel : Nat} {db' : DB} {s : Summary}
    (hrun : ingest_one_athlete db env hint rt pp ad now fuel = some (.ok (db', s))) :
    ∃ td ath as,
      env.tokenResp = .ok td ∧ env.athleteResp = .ok ath ∧
      list_activities_since env.provider
        (db_get_last_after_epoch (ingest_pre db td ath rt now) ath.id ad) pp fuel
        = some (.ok as) ∧
      (db', s) = ingest_post (ingest_pre db td ath rt now) ath.id
        (db_get_last_after_epoch (ingest_pre db td ath rt now) ath.id ad) as now
        (td.expires_at.getD 0) td.scope (pyOrStr td.refresh_token rt != rt) := by
  cases htok : env.tokenResp with
  | error status => rw [ingest_one_athlete, htok] at hrun; simp at hrun
  | ok td =>
    cases hath : env.athleteResp with
    | error e => rw [ingest_one_athlete, htok, hath] at hrun; simp at hrun
    | ok ath =>
      rw [ingest_one_athlete, htok, hath] at hrun
      simp only at hrun
      cases hfetch : list_activities_since env.provider
          (db_get_last_after_epoch (ingest_pre db td ath rt now) ath.id ad) pp fuel with
      | none => rw [hfetch] at hrun; simp at hrun
      | some r =>
        cases r with
        | error e => rw [hfetch] at hrun; simp at hrun
        | ok as =>
          rw [hfetch] at hrun
          simp only [Option.some.injEq, Except.ok.injEq] at hrun
          exact ⟨td, ath, as, rfl, rfl, hfetch, by rw [← hrun]⟩

theorem ingest_post_summary (db2 : DB) (aid ae : Int) (as : List RawActivity)
    (now : Nat) (ea : Int) (sc : Option String) (ch : Bool) :
    (ingest_post db2 aid ae as now ea sc ch).2 =
      { athlete_id := aid
        after_epoch := ae
        advanced_to := if ae < maxEpochFrom ae as then maxEpochFrom ae as - 60 else ae
        retrieved := as.length
        upserted := (upsertAll db2 aid as now ae 0).2.2
        expires_at := ea
        scope := sc
        used_refresh_token_changed := ch } := by
  unfold ingest_post
  simp only [upsertAll_max]
  split <;> rfl

theorem ingest_post_db (db2 : DB) (aid ae : Int) (as : List RawActivity)
    (now : Nat) (ea : Int) (sc : Option String) (ch : Bool) :
    (ingest_post db2 aid ae as now ea sc ch).1 =
      if ae < maxEpochFrom ae as then
        db_set_last_after_epoch (upsertAll db2 aid as now ae 0).1 aid (maxEpochFrom ae as - 60) now
      else (upsertAll db2 aid as now ae 0).1 := by
  unfold ingest_post
  simp only [upsertAll_max]
  split <;> rfl

theorem state_ingest_pre (db : DB) (td : TokenData) (ath : AthleteData) (rt : String)
    (now : Nat) : (ingest_pre db td ath rt now).state = db.state := rfl

theorem tokens_ingest_post (db2 : DB) (aid ae : Int) (as : List RawActivity) (now : Nat)
    (ea : Int) (sc : Option String) (ch : Bool) :
    (ingest_post db2 aid ae as now ea sc ch).1.tokens = db2.tokens := by
  rw [ingest_post_db]
  split
  · rw [tokens_db_set_last_after_epoch, upsertAll_tokens]
  · rw [upsertAll_tokens]

theorem hasOwned_congr {db1 db2 : DB} (h : db1.activities = db2.activities)
    (K aid : Int) : hasOwned db1 K aid ↔ hasOwned db2 K aid := by
  unfold hasOwned
  rw [h]

/-! Claim C1. -/

/-- C1 counterexample.  The claim says the cursor is monotonically
non-decreasing across sync calls.  On the code this fails: with cursor
1000 and one fetched activity at start epoch 1001, `max_epoch = 1001 >
1000`, so the cursor is set to `1001 - 60 = 941 < 1000` — the cursor
regresses by 59 seconds. -/
theorem c1_cursor_not_monotone :
    (ingest_one_athlete c1_db c1_env none "rt" 50 0 5 10).map
        (Except.map (fun p => (p.2.after_epoch, p.2.advanced_to)))
      = some (.ok ((1000 : Int), (941 : Int)))
    ∧ (941 : Int) < 1000 := by
  exact ⟨by decide, by decide⟩

/-- C1 (amended).  For every run of `ingest_one_athlete` that starts
with cursor value `C` and commits, the cursor value after the run is
at least `C - 59`: it is either unchanged, or set to
`max_epoch - 60`, which (since the advance only happens when
`max_epoch > C`) is at least `C + 1 - 60`.  It is *not* monotonically
non-decreasing: it may regress by up to 59 seconds (the margin minus
one) when a fetched start epoch exceeds `C` by less than the 60 s
margin.  In all cases the stored cursor after the run equals the
summary's `advanced_to` value. -/
theorem c1_cursor_regression_bounded {db : DB} {env : AthleteEnv} {hint : Option Int}
    {rt : String} {pp ad : Int} {now fuel : Nat} {db' : DB} {s : Summary}
    (hrun : ingest_one_athlete db env hint rt pp ad now fuel = some (.ok (db', s))) :
    s.after_epoch - 59 ≤ s.advanced_to ∧
    db_get_last_after_epoch db' s.athlete_id ad = s.advanced_to := by
  obtain ⟨td, ath, as, _htok, _hath, _hfetch, heq⟩ := ingest_ok_inv hrun
  have hdb := congrArg Prod.fst heq
  have hs := congrArg Prod.snd heq
  simp only at hdb hs
  rw [ingest_post_db] at hdb
  rw [ingest_post_summary] at hs
  set A := db_get_last_after_epoch (ingest_pre db td ath rt now) ath.id ad with hA
  set M := maxEpochFrom A as with hM
  have hAM : A ≤ M := hM ▸ maxEpochFrom_le A as
  subst hs
  dsimp only
  by_cases hlt : A < M
  · rw [if_pos hlt, hdb, if_pos hlt]
    exact ⟨by omega, db_get_after_set _ _ _ _ _⟩
  · rw [if_neg hlt, hdb, if_neg hlt]
    refine ⟨by omega, ?_⟩
    rw [db_get_last_after_epoch_congr (upsertAll_state (ingest_pre db td ath rt now) ath.id as now A 0) ath.id ad]

/-- C1 witness: the amended bound instantiated on the 59-second
regression scenario (cursor 1000, fetched epoch 1001). -/
theorem c1_cursor_regression_bounded_witness :
    ∃ db' s, ingest_one_athlete c1_db c1_env none "rt" 50 0 5 10 = some (.ok (db', s)) ∧
      s.after_epoch - 59 ≤ s.advanced_to ∧
      db_get_last_after_epoch db' s.athlete_id 0 = s.advanced_to := by
  refine ⟨_, _, rfl, ?_, ?_⟩
  · exact (@c1_cursor_regression_bounded c1_db c1_env none "rt" 50 0 5 10 _ _ (by rfl)).1
  · exact (@c1_cursor_regression_bounded c1_db c1_env none "rt" 50 0 5 10 _ _ (by rfl)).2

/-! Claim C2. -/

/-- C2.  For every sync run whose token refresh, athlete fetch and
activities fetch succeed (the fetch returning records `as`): the run
returns a committed database and summary in which, with `C` the cursor
read for the athlete and `M` the maximum resolvable start epoch folded
over `as`, (i) every resolvable start epoch of `as` is at most `M`;
(ii) if `M > C` the stored cursor and `advanced_to` both equal exactly
`M - 60`, and `M` is attained by some fetched record; (iii) otherwise
the cursor store is not written (the state table is unchanged from the
input database) and `advanced_to = C`; and (iv) every fetched record
is stored in the activities table owned by the fetched athlete id. -/
theorem c2_cursor_advance {db : DB} {env : AthleteEnv} (hint : Option Int) (rt : String)
    (pp ad : Int) (now fuel : Nat) {td : TokenData} {ath : AthleteData}
    {as : List RawActivity}
    (htok : env.tokenResp = .ok td) (hath : env.athleteResp = .ok ath)
    (hfetch : list_activities_since env.provider
        (db_get_last_after_epoch (ingest_pre db td ath rt now) ath.id ad) pp fuel
        = some (.ok as)) :
    ∃ db' s, ingest_one_athlete db env hint rt pp ad now fuel = some (.ok (db', s)) ∧
      s.athlete_id = ath.id ∧
      s.after_epoch = db_get_last_after_epoch (ingest_pre db td ath rt now) ath.id ad ∧
      (∀ a ∈ as, ∀ e : Int, a.start_epoch = some e → e ≤ maxEpochFrom s.after_epoch as) ∧
      (s.after_epoch < maxEpochFrom s.after_epoch as →
        s.advanced_to = maxEpochFrom s.after_epoch as - 60 ∧
        db_get_last_after_epoch db' ath.id ad = maxEpochFrom s.after_epoch as - 60 ∧
        ∃ a ∈ as, a.start_epoch = some (maxEpochFrom s.after_epoch as)) ∧
      (¬ s.after_epoch < maxEpochFrom s.after_epoch as →
        s.advanced_to = s.after_epoch ∧ db'.state = db.state) ∧
      (∀ a ∈ as, hasOwned db' a.id ath.id) := by
  have hrun : ingest_one_athlete db env hint rt pp ad now fuel =
      some (.ok (ingest_post (ingest_pre db td ath rt now) ath.id
        (db_get_last_after_epoch (ingest_pre db td ath rt now) ath.id ad) as now
        (td.expires_at.getD 0) td.scope (pyOrStr td.refresh_token rt != rt))) := by
    rw [ingest_one_athlete, htok, hath]
    simp only
    rw [hfetch]
  set db2 := ingest_pre db td ath rt now with hdb2
  set A := db_get_last_after_epoch db2 ath.id ad with hA
  set P := ingest_post db2 ath.id A as now (td.expires_at.getD 0) td.scope
    (pyOrStr td.refresh_token rt != rt) with hP
  refine ⟨P.1, P.2, by rw [hrun], ?_, ?_, ?_, ?_, ?_, ?_⟩
  · rw [hP, ingest_post_summary]
  · rw [hP, ingest_post_summary]
  · intro a ha e he
    have h2 : P.2.after_epoch = A := by rw [hP, ingest_post_summary]
    rw [h2]
    exact maxEpochFrom_upper A as a ha e he
  · intro hlt
    have h2 : P.2.after_epoch = A := by rw [hP, ingest_post_summary]
    rw [h2] at hlt ⊢
    refine ⟨?_, ?_, ?_⟩
    · rw [hP, ingest_post_summary]
      simp only [hA]
      rw [if_pos hlt]
    · rw [hP, ingest_post_db, if_pos hlt]
      exact db_get_after_set _ _ _ _ _
    · rcases maxEpochFrom_attained A as with h | h
      · omega
      · exact h
  · intro hlt
    have h2 : P.2.after_epoch = A := by rw [hP, ingest_post_summary]
    rw [h2] at hlt ⊢
    refine ⟨?_, ?_⟩
    · rw [hP, ingest_post_summary]
      simp only [hA]
      rw [if_neg hlt]
    · rw [hP, ingest_post_db, if_neg hlt, upsertAll_state, hdb2, state_ingest_pre]
  · intro a ha
    rw [hP, ingest_post_db]
    split
    · rw [hasOwned_congr (activities_db_set_last_after_epoch _ _ _ _) a.id ath.id]
      exact upsertAll_hasOwned db2 ath.id as now A 0 a ha
    · exact upsertAll_hasOwned db2 ath.id as now A 0 a ha

/-- C2 witness: the spec's scenario — cursor 1000, fetched activities
at epochs 1050 and 1200; the cursor ends at 1140 and both activities
are stored owned by athlete 7. -/
theorem c2_cursor_advance_witness :
    ∃ db' s, ingest_one_athlete c2_db c2_env none "rt" 50 0 5 10 = some (.ok (db', s)) ∧
      s.advanced_to = 1140 ∧
      db_get_last_after_epoch db' 7 0 = 1140 ∧
      hasOwned db' 11 7 ∧ hasOwned db' 12 7 := by
  obtain ⟨db', s, hrun, haid, hae, _hub, hadv, _hnadv, hown⟩ :=
    @c2_cursor_advance c2_db c2_env none "rt" 50 0 5 10 _ _ _ rfl rfl (by rfl)
  have hae' : s.after_epoch = 1000 := by rw [hae]; rfl
  have hlt : s.after_epoch < maxEpochFrom s.after_epoch
      [RawActivity.mk0 11 (some 1050), RawActivity.mk0 12 (some 1200)] := by
    rw [hae']
    decide
  obtain ⟨hadv1, hadv2, _⟩ := hadv hlt
  simp only [List.nil_append] at hadv1 hadv2
  have hM : maxEpochFrom s.after_epoch
      [RawActivity.mk0 11 (some 1050), RawActivity.mk0 12 (some 1200)] = 1200 := by
    rw [hae']
    decide
  refine ⟨db', s, hrun, ?_, ?_, ?_, ?_⟩
  · rw [hadv1, hM]
    decide
  · rw [hadv2, hM]
    decide
  · exact hown (RawActivity.mk0 11 (some 1050)) (by simp)
  · exact hown (RawActivity.mk0 12 (some 1200)) (by simp)

/-! Claim C3. -/

/-- C3.  Upserting an activity is idempotent on the row set: after a
record with external id `K` has been stored, applying
`db_upsert_activity` again with any record carrying the same id `K`
(any athlete, any later clock) leaves the activity-row count
unchanged, keeps the number of rows keyed by `K` unchanged (never a
second row), and the row found under key `K` is exactly the freshly
normalized row — all normalized columns, the raw payload and the
last-updated timestamp are overwritten. -/
theorem c3_upsert_idempotent (db : DB) (aid aid2 : Int) (a a2 : RawActivity)
    (now now2 : Nat) (hid : a2.id = a.id) :
    ((db_upsert_activity (db_upsert_activity db aid a now).1 aid2 a2 now2).1.activities.length
        = (db_upsert_activity db aid a now).1.activities.length) ∧
    ((db_upsert_activity (db_upsert_activity db aid a now).1 aid2 a2 now2).1.activities.countP
        (fun r => r.activity_id == a2.id)
      = (db_upsert_activity db aid a now).1.activities.countP (fun r => r.activity_id == a2.id)) ∧
    ((db_upsert_activity (db_upsert_activity db aid a now).1 aid2 a2 now2).1.activities.find?
        (fun r => r.activity_id == a2.id) = some (normalizeActivity aid2 a2 now2)) := by
  simp only [hid]
  have hhit1 : (fun r : ActivityRow => r.activity_id == a.id) (normalizeActivity aid a now) = true := by
    simp [normalizeActivity]
  have hhit2 : (fun r : ActivityRow => r.activity_id == a.id) (normalizeActivity aid2 a2 now2) = true := by
    simp [normalizeActivity, hid]
  have hany : (db_upsert_activity db aid a now).1.activities.any
      (fun r => r.activity_id == a.id) = true := by
    unfold db_upsert_activity
    exact upsertBy_any_self _ _ _ hhit1
  refine ⟨?_, ?_, ?_⟩
  · unfold db_upsert_activity
    simp only [hid]
    exact length_upsertBy_of_any _ _ _ hany
  · unfold db_upsert_activity
    simp only [hid]
    exact countP_upsertBy_of_any _ _ _ hhit2 hany
  · unfold db_upsert_activity
    simp only [hid]
    exact find?_upsertBy _ _ _ hhit2

/-- C3 witness: the idempotence facts instantiated on a concrete
re-fetch of external id 77 with changed name and distance. -/
theorem c3_upsert_idempotent_witness :
    ((db_upsert_activity (db_upsert_activity DB.empty 7 c3_a 1).1 7 c3_a2 2).1.activities.length
        = (db_upsert_activity DB.empty 7 c3_a 1).1.activities.length) ∧
    ((db_upsert_activity (db_upsert_activity DB.empty 7 c3_a 1).1 7 c3_a2 2).1.activities.countP
        (fun r => r.activity_id == c3_a2.id)
      = (db_upsert_activity DB.empty 7 c3_a 1).1.activities.countP
          (fun r => r.activity_id == c3_a2.id)) ∧
    ((db_upsert_activity (db_upsert_activity DB.empty 7 c3_a 1).1 7 c3_a2 2).1.activities.find?
        (fun r => r.activity_id == c3_a2.id) = some (normalizeActivity 7 c3_a2 2)) :=
  c3_upsert_idempotent DB.empty 7 7 c3_a c3_a2 1 2 (by decide)

/-! Claim C4. -/

theorem strava_get_go_retry (resp : AttemptOracle) (n att : Nat) (sleeps : List Nat)
    (h : retryable (resp att) = true) :
    strava_get_go resp (n + 1) att sleeps
      = strava_get_go resp n (att + 1) (sleeps ++ [2 ^ att]) := by
  have h' := h
  unfold retryable at h'
  simp only [Bool.or_eq_true, beq_iff_eq] at h'
  simp only [strava_get_go]
  rcases h' with (((h1 | h1) | h1) | h1) | h1
  · rw [if_pos h1]
  · rw [if_neg (by rw [h1]; decide), if_pos (Or.inl h1)]
  · rw [if_neg (by rw [h1]; decide), if_pos (Or.inr (Or.inl h1))]
  · rw [if_neg (by rw [h1]; decide), if_pos (Or.inr (Or.inr (Or.inl h1)))]
  · rw [if_neg (by rw [h1]; decide), if_pos (Or.inr (Or.inr (Or.inr h1)))]

theorem strava_get_go_done (resp : AttemptOracle) (n att : Nat) (sleeps : List Nat)
    (h1 : retryable (resp att) = false) (h2 : (resp att).status < 400) :
    strava_get_go resp (n + 1) att sleeps = (.ok (resp att).body, sleeps) := by
  have h' := h1
  unfold retryable at h'
  simp only [Bool.or_eq_false_iff, beq_eq_false_iff_ne, ne_eq] at h'
  obtain ⟨⟨⟨⟨h429, h500⟩, h502⟩, h503⟩, h504⟩ := h'
  simp only [strava_get_go]
  rw [if_neg h429, if_neg (by tauto), if_neg (by omega)]

theorem strava_get_go_skip (resp : AttemptOracle) (k : Nat) :
    ∀ (n att : Nat) (sleeps : List Nat), k ≤ n →
      (∀ i, i < k → retryable (resp (att + i)) = true) →
      strava_get_go resp n att sleeps
        = strava_get_go resp (n - k) (att + k)
            (sleeps ++ (List.range k).map (fun i => 2 ^ (att + i))) := by
  induction k with
  | zero => intro n att sleeps _ _; simp
  | succ k ih =>
    intro n att sleeps hkn hret
    obtain ⟨m, rfl⟩ : ∃ m, n = m + 1 := ⟨n - 1, by omega⟩
    rw [strava_get_go_retry resp m att sleeps (by simpa using hret 0 (by omega))]
    rw [ih m (att + 1) (sleeps ++ [2 ^ att]) (by omega)
      (fun i hi => by
        have hx := hret (i + 1) (by omega)
        rwa [show att + (i + 1) = att + 1 + i by omega] at hx)]
    have e1 : m - k = m + 1 - (k + 1) := by omega
    have e2 : att + 1 + k = att + (k + 1) := by omega
    have e3 : sleeps ++ [2 ^ att] ++ (List.range k).map (fun i => 2 ^ (att + 1 + i))
        = sleeps ++ (List.range (k + 1)).map (fun i => 2 ^ (att + i)) := by
      rw [List.append_assoc]
      congr 1
      rw [List.range_succ_eq_map, List.map_cons, List.map_map, List.singleton_append]
      simp only [Nat.add_zero, Function.comp]
      congr 1
      apply List.map_congr_left
      intro i _
      show 2 ^ (att + 1 + i) = 2 ^ (att + Nat.succ i)
      have hexp : att + 1 + i = att + Nat.succ i := by omega
      rw [hexp]
    rw [e1, e2, e3]

theorem strava_get_go_congr (resp resp2 : AttemptOracle) :
    ∀ (n att : Nat) (sleeps : List Nat),
      (∀ i, i < n → resp (att + i) = resp2 (att + i)) →
      strava_get_go resp n att sleeps = strava_get_go resp2 n att sleeps := by
  intro n
  induction n with
  | zero => intro att sleeps _; rfl
  | succ m ih =>
    intro att sleeps hagree
    have h0 : resp att = resp2 att := by simpa using hagree 0 (by omega)
    have hshift : ∀ i, i < m → resp (att + 1 + i) = resp2 (att + 1 + i) := by
      intro i hi
      have hx := hagree (i + 1) (by omega)
      rwa [show att + (i + 1) = att + 1 + i by omega] at hx
    simp only [strava_get_go]
    rw [h0]
    split_ifs
    · exact ih (att + 1) _ hshift
    · exact ih (att + 1) _ hshift
    · rfl
    · rfl

theorem strava_get_go_raise (resp : AttemptOracle) (n att : Nat) (sleeps : List Nat)
    (h1 : retryable (resp att) = false) (h2 : 400 ≤ (resp att).status) :
    strava_get_go resp (n + 1) att sleeps
      = (.error (.providerError (resp att).status), sleeps) := by
  have h' := h1
  unfold retryable at h'
  simp only [Bool.or_eq_false_iff, beq_eq_false_iff_ne, ne_eq] at h'
  obtain ⟨⟨⟨⟨h429, h500⟩, h502⟩, h503⟩, h504⟩ := h'
  simp only [strava_get_go]
  rw [if_neg h429, if_neg (by tauto), if_pos h2]

/-- C4 counterexample.  The claim says every HTTP 429 *or 5xx*
response causes the same request to be retried after a `2^attempt`
backoff, with exhaustion of the 4-attempt bound raising the
retries-exhausted error.  On the code this fails for 5xx statuses
outside `(500, 502, 503, 504)`: a 501 falls through to the generic
`status >= 400` branch and raises immediately — a constant-501 oracle
yields the provider error with an empty sleeps list (no retry, no
backoff) rather than ever exhausting the retry bound. -/
theorem c4_501_raises_immediately :
    strava_get (fun _ => ⟨501, Jx.jother false⟩) 4
      = (.error (IngestError.providerError 501), ([] : List Nat)) ∧
    strava_get (fun _ => ⟨501, Jx.jother false⟩) 4
      ≠ (.error IngestError.fetchExhausted, [1, 2, 4, 8]) := by
  exact ⟨by decide, by decide⟩

/-- C4 (amended).  The retry set of `strava_get` is exactly HTTP 429
and the transient statuses 500, 502, 503, 504 — not every 5xx: any
other status `≥ 400` (including 501, 505, …) raises `ProviderError`
immediately, with no retry and no backoff beyond the sleeps already
performed.  Within the retry set the behaviour is as the claim says:
(i) the result depends only on the first four attempts (at most 4
attempts in total); (ii) if all four attempts are retryable, the call
backs off `2^attempt` seconds after each attempt (sleeps
`[1, 2, 4, 8]`) and then fails with the retries-exhausted error;
(iii) if the first `k < 4` attempts are retryable and attempt `k` is
a non-retryable success, the call returns that response's body after
backoffs `2^0 .. 2^(k-1)` — in particular two 429s followed by a
success return the success body within the bound; (iv) if attempt `k`
is instead a non-retryable status `≥ 400`, the call raises the
provider error for that status right there, after the same
backoffs. -/
theorem c4_retry_backoff (resp resp2 : AttemptOracle) :
    ((∀ i, i < 4 → resp i = resp2 i) → strava_get resp 4 = strava_get resp2 4) ∧
    ((∀ i, i < 4 → retryable (resp i) = true) →
      strava_get resp 4 = (.error .fetchExhausted, [1, 2, 4, 8])) ∧
    (∀ k, k < 4 → (∀ i, i < k → retryable (resp i) = true) →
      retryable (resp k) = false → (resp k).status < 400 →
      strava_get resp 4 = (.ok (resp k).body, (List.range k).map (fun i => 2 ^ i))) ∧
    (∀ k, k < 4 → (∀ i, i < k → retryable (resp i) = true) →
      retryable (resp k) = false → 400 ≤ (resp k).status →
      strava_get resp 4 = (.error (.providerError (resp k).status),
        (List.range k).map (fun i => 2 ^ i))) := by
  refine ⟨?_, ?_, ?_, ?_⟩
  · intro hagree
    exact strava_get_go_congr resp resp2 4 0 [] (fun i hi => by simpa using hagree i hi)
  · intro hret
    unfold strava_get
    rw [strava_get_go_skip resp 4 4 0 [] (le_refl 4) (fun i hi => by simpa using hret i hi)]
    simp only [Nat.sub_self, strava_get_go]
    decide
  · intro k hk hret hstop hstatus
    unfold strava_get
    rw [strava_get_go_skip resp k 4 0 [] (by omega) (fun i hi => by simpa using hret i hi)]
    obtain ⟨m, hm⟩ : ∃ m, 4 - k = m + 1 := ⟨3 - k, by omega⟩
    rw [hm]
    rw [strava_get_go_done resp m (0 + k) _ (by simpa using hstop) (by simpa using hstatus)]
    simp
  · intro k hk hret hstop hstatus
    unfold strava_get
    rw [strava_get_go_skip resp k 4 0 [] (by omega) (fun i hi => by simpa using hret i hi)]
    obtain ⟨m, hm⟩ : ∃ m, 4 - k = m + 1 := ⟨3 - k, by omega⟩
    rw [hm]
    rw [strava_get_go_raise resp m (0 + k) _ (by simpa using hstop) (by simpa using hstatus)]
    simp

/-- C4 witness: two 429s then a success returns the success body after
backoffs of 1 and 2 seconds; an all-503 oracle exhausts the four
attempts after backoffs 1, 2, 4, 8; a 429 followed by a 501 raises
the provider error for 501 after the single backoff of 1 second. -/
theorem c4_retry_backoff_witness :
    strava_get c4_resp 4
      = (.ok (.jlist [RawActivity.mk0 21 (some 500), RawActivity.mk0 22 none]), [1, 2]) ∧
    strava_get c4_resp503 4 = (.error .fetchExhausted, [1, 2, 4, 8]) ∧
    strava_get c4_resp501 4 = (.error (IngestError.providerError 501), [1]) := by
  refine ⟨?_, ?_, ?_⟩
  · have h := (c4_retry_backoff c4_resp c4_resp).2.2.1 2 (by omega)
      (fun i hi => by interval_cases i <;> decide)
      (by decide) (by decide)
    simpa using h
  · exact (c4_retry_backoff c4_resp503 c4_resp503).2.1 (fun i _ => rfl)
  · have h := (c4_retry_backoff c4_resp501 c4_resp501).2.2.2 1 (by omega)
      (fun i hi => by interval_cases i <;> rfl) (by rfl) (by decide)
    rw [h]
    decide

/-! Claim C5. -/

theorem strava_get_first_ok (provider : PageOracle) (ae pp : Int) (page : Nat)
    (pages : Nat → List RawActivity)
    (hprov : ∀ p att, provider ae pp p att = ⟨200, .jlist (pages p)⟩) :
    (strava_get (provider ae pp page) 4).1 = .ok (.jlist (pages page)) := by
  unfold strava_get
  rw [strava_get_go_done (provider ae pp page) 3 0 [] (by rw [hprov]; rfl) (by rw [hprov]; show (200 : Nat) < 400; decide)]
  rw [hprov]

theorem list_activities_go_pages (provider : PageOracle) (ae pp : Int)
    (pages : Nat → List RawActivity)
    (hprov : ∀ p att, provider ae pp p att = ⟨200, .jlist (pages p)⟩) :
    ∀ (j page : Nat) (acc : List RawActivity) (fuel : Nat), j + 1 ≤ fuel →
      (∀ i, page ≤ i → i < page + j → pages i ≠ []) →
      pages (page + j) = [] →
      list_activities_go provider ae pp fuel page acc
        = some (.ok (acc ++ ((List.range j).map (fun t => pages (page + t))).flatten)) := by
  intro j
  induction j with
  | zero =>
    intro page acc fuel hfuel _ hend
    obtain ⟨f, rfl⟩ : ∃ f, fuel = f + 1 := ⟨fuel - 1, by omega⟩
    rw [Nat.add_zero] at hend
    simp only [list_activities_go]
    rw [strava_get_first_ok provider ae pp page pages hprov]
    simp only [Jx.falsy]
    rw [hend]
    simp
  | succ j ih =>
    intro page acc fuel hfuel hnon hend
    obtain ⟨f, rfl⟩ : ∃ f, fuel = f + 1 := ⟨fuel - 1, by omega⟩
    simp only [list_activities_go]
    rw [strava_get_first_ok provider ae pp page pages hprov]
    have hne : pages page ≠ [] := hnon page (le_refl page) (by omega)
    have hfalsy : (Jx.jlist (pages page)).falsy = false := by
      simp [Jx.falsy, hne]
    simp only [hfalsy]
    rw [if_neg (by decide)]
    rw [ih (page + 1) (acc ++ pages page) f (by omega)
      (fun i hi1 hi2 => hnon i (by omega) (by omega))
      (by rw [show page + 1 + j = page + (j + 1) from by omega]; exact hend)]
    have e : acc ++ pages page ++ ((List.range j).map (fun t => pages (page + 1 + t))).flatten
        = acc ++ ((List.range (j + 1)).map (fun t => pages (page + t))).flatten := by
      rw [List.append_assoc]
      congr 1
      rw [List.range_succ_eq_map, List.map_cons, List.map_map, List.flatten_cons]
      simp only [Nat.add_zero, Function.comp]
      congr 1
      apply congrArg
      apply List.map_congr_left
      intro t _
      show pages (page + 1 + t) = pages (page + Nat.succ t)
      congr 1
      omega
    rw [e]

/-- C5.  For every page oracle that answers every request with a list
body, every `after_epoch` and every `per_page` value:
`list_activities_since` requests pages starting at number 1 and
incrementing by 1, terminates as soon as a fetched page is empty (at
the first empty page `k`, for any fuel at least `k`, so the loop stops
there), and returns the concatenation of the records of pages
`1 .. k-1` in request order. -/
theorem c5_pagination (provider : PageOracle) (ae pp : Int)
    (pages : Nat → List RawActivity) (k : Nat) (hk : 1 ≤ k)
    (hprov : ∀ p att, provider ae pp p att = ⟨200, .jlist (pages p)⟩)
    (hnon : ∀ i, 1 ≤ i → i < k → pages i ≠ [])
    (hend : pages k = []) :
    ∀ fuel, k ≤ fuel →
      list_activities_since provider ae pp fuel
        = some (.ok (((List.range (k - 1)).map (fun t => pages (1 + t))).flatten)) := by
  intro fuel hfuel
  unfold list_activities_since
  rw [list_activities_go_pages provider ae pp pages hprov (k - 1) 1 [] fuel (by omega)
    (fun i hi1 hi2 => hnon i hi1 (by omega))
    (by rw [show 1 + (k - 1) = k from by omega]; exact hend)]
  simp

/-- C5 witness: three pages (two non-empty, then an empty one) are
concatenated in request order, for `per_page = 50` and any larger
fuel. -/
theorem c5_pagination_witness :
    list_activities_since c5_provider 0 50 5
      = some (.ok [RawActivity.mk0 31 (some 10), RawActivity.mk0 32 (some 20),
          RawActivity.mk0 33 (some 30)]) := by
  rw [c5_pagination c5_provider 0 50 c5_pages 3 (by omega) (fun p att => rfl)
    (fun i h1 h2 => by interval_cases i <;> decide) (by decide) 5 (by omega)]
  decide

/-! Claim C6. -/

/-- C6 counterexample.  The claim says single-athlete mode propagates
ingestion errors to the caller.  On the code this fails: the
try/except in `main` wraps the per-athlete loop body in *every* mode,
so with a single target whose token refresh fails with HTTP 401, the
run returns normally — the committed database is unchanged and the
summary list is empty; no error reaches the caller. -/
theorem c6_single_athlete_error_swallowed :
    process_targets (DB.empty) [c6_target] 50 0 5 10 = some (DB.empty, []) := by
  decide

/-- C6 (amended).  In single-athlete mode, exactly as in multi-athlete
mode, any error raised during the athlete's ingestion (auth failure,
provider error, retry exhaustion, protocol violation) is caught at the
per-athlete loop boundary: the transaction is rolled back (the
committed database is returned unchanged), the failure is only logged,
and `main` returns normally with an empty summary list instead of
propagating the error. -/
theorem c6_single_athlete_catches {db : DB} {t : Target} {pp ad : Int} {now fuel : Nat}
    {e : IngestError}
    (h : ingest_one_athlete db t.env t.hint t.refresh_token pp ad now fuel
      = some (.error e)) :
    process_targets db [t] pp ad now fuel = some (db, []) := by
  unfold process_targets
  rw [h]
  rfl

/-- C6 witness: the catch-and-continue behaviour instantiated on a
single-athlete run whose athlete fetch fails with a provider error. -/
theorem c6_single_athlete_catches_witness :
    process_targets (DB.empty) [c6_target2] 50 0 5 10 = some (DB.empty, []) :=
  @c6_single_athlete_catches DB.empty c6_target2 50 0 5 10 (.providerError 403) (by decide)

/-! Claim C7. -/

/-- C7 counterexample.  The claim says the returned overall summary
reports failed athlete X as failed and successful athlete Y as
successful (per-athlete success/failure counts).  On the code this
fails: `summaries` only collects successful athletes, failures are
only logged, and no success/failure count is returned.  In a concrete
run where X (hint 7) fails at token refresh and Y (athlete 8)
succeeds, the returned summary list contains exactly one entry — Y's —
and no record of X at all; Y's activity is nonetheless committed and
X contributed no rows. -/
theorem c7_summary_reports_only_successes :
    (process_targets c7_db [c7_tX, c7_tY] 50 0 5 10).map
        (fun p => (p.2.map Summary.athlete_id,
                   p.1.athletes.map AthleteRow.athlete_id,
                   p.1.activities.map ActivityRow.activity_id))
      = some ([8], [8], [91]) := by
  decide

/-- C7 (amended).  In a multi-athlete run where athlete X's ingestion
raises and athlete Y's succeeds, X's transaction is rolled back (Y
runs against the database as it was before X, and X's writes are
absent), processing continues with Y, and Y's writes are committed
despite X's failure.  The returned summary list, however, contains
only the successful athletes' summaries — here exactly Y's — with no
per-athlete failure count: X's failure is only logged. -/
theorem c7_failure_isolated {db : DB} {tX tY : Target} {pp ad : Int} {now fuel : Nat}
    {e : IngestError} {db1 : DB} {sY : Summary}
    (hX : ingest_one_athlete db tX.env tX.hint tX.refresh_token pp ad now fuel
      = some (.error e))
    (hY : ingest_one_athlete db tY.env tY.hint tY.refresh_token pp ad now fuel
      = some (.ok (db1, sY))) :
    process_targets db [tX, tY] pp ad now fuel = some (db1, [sY]) := by
  unfold process_targets
  rw [hX]
  unfold process_targets
  rw [hY]
  rfl

/-- C7 witness: the isolation behaviour instantiated on the concrete
X-fails/Y-succeeds scenario; Y's summary is the only one returned. -/
theorem c7_failure_isolated_witness :
    ∃ db1 sY, ingest_one_athlete c7_db c7_tY.env c7_tY.hint c7_tY.refresh_token 50 0 5 10
        = some (.ok (db1, sY)) ∧
      process_targets c7_db [c7_tX, c7_tY] 50 0 5 10 = some (db1, [sY]) ∧
      sY.athlete_id = 8 := by
  refine ⟨_, _, rfl, ?_, ?_⟩
  · exact @c7_failure_isolated c7_db c7_tX c7_tY 50 0 5 10 (.authError 400) _ _ (by rfl) (by rfl)
  · rfl

/-! Claim C8. -/

theorem strava_get_ok_of_200 (resp : AttemptOracle) (h : (resp 0).status = 200) :
    (strava_get resp 4).1 = .ok (resp 0).body := by
  unfold strava_get
  rw [strava_get_go_done resp 3 0 []
    (by unfold retryable; rw [h]; decide) (by rw [h]; decide)]

/-- C8 counterexample.  The claim says every non-list response body
fails with `ProtocolError` and is never silently treated as end of
pagination.  On the code this fails: `if not data: break` runs before
the `isinstance(data, list)` check, so a falsy non-list body (an empty
dict, `null`, `""`, `0`) silently terminates pagination — the call
returns the records collected so far instead of raising. -/
theorem c8_falsy_nonlist_ends_pagination :
    list_activities_since (fun _ _ _ _ => ⟨200, Jx.jother false⟩) 0 50 5 = some (.ok [])
    ∧ list_activities_since (fun _ _ _ _ => ⟨200, Jx.jother false⟩) 0 50 5
        ≠ some (.error IngestError.protocolError) := by
  exact ⟨by decide, by decide⟩

theorem list_activities_go_skip_pages (provider : PageOracle) (ae pp : Int)
    (pages : Nat → List RawActivity) :
    ∀ (j page : Nat) (acc : List RawActivity) (fuel : Nat), j < fuel →
      (∀ p att, page ≤ p → p < page + j → provider ae pp p att = ⟨200, .jlist (pages p)⟩) →
      (∀ i, page ≤ i → i < page + j → pages i ≠ []) →
      list_activities_go provider ae pp fuel page acc
        = list_activities_go provider ae pp (fuel - j) (page + j)
            (acc ++ ((List.range j).map (fun u => pages (page + u))).flatten) := by
  intro j
  induction j with
  | zero => intro page acc fuel _ _ _; simp
  | succ j ih =>
    intro page acc fuel hfuel hlist hnon
    obtain ⟨f, rfl⟩ : ∃ f, fuel = f + 1 := ⟨fuel - 1, by omega⟩
    simp only [list_activities_go]
    have hget : (strava_get (provider ae pp page) 4).1 = .ok (.jlist (pages page)) := by
      rw [strava_get_ok_of_200 (provider ae pp page)
          (by rw [hlist page 0 (le_refl page) (by omega)]),
        hlist page 0 (le_refl page) (by omega)]
    rw [hget]
    have hne : pages page ≠ [] := hnon page (le_refl page) (by omega)
    have hfalsy : (Jx.jlist (pages page)).falsy = false := by
      simp [Jx.falsy, hne]
    simp only [hfalsy]
    rw [if_neg (by decide)]
    rw [ih (page + 1) (acc ++ pages page) f (by omega)
      (fun p att hp1 hp2 => hlist p att (by omega) (by omega))
      (fun i hi1 hi2 => hnon i (by omega) (by omega))]
    have e1 : f - j = f + 1 - (j + 1) := by omega
    have e2 : page + 1 + j = page + (j + 1) := by omega
    have e3 : acc ++ pages page ++ ((List.range j).map (fun u => pages (page + 1 + u))).flatten
        = acc ++ ((List.range (j + 1)).map (fun u => pages (page + u))).flatten := by
      rw [List.append_assoc]
      congr 1
      rw [List.range_succ_eq_map, List.map_cons, List.map_map, List.flatten_cons]
      simp only [Nat.add_zero, Function.comp]
      congr 1
      apply congrArg
      apply List.map_congr_left
      intro u _
      show pages (page + 1 + u) = pages (page + Nat.succ u)
      congr 1
      omega
    rw [e1, e2, e3]

theorem list_activities_go_nonlist (provider : PageOracle) (ae pp : Int) (page : Nat)
    (t : Bool) (acc : List RawActivity) (f : Nat)
    (hbody : ∀ att, provider ae pp page att = ⟨200, .jother t⟩) :
    list_activities_go provider ae pp (f + 1) page acc
      = some (if t then .error .protocolError else .ok acc) := by
  simp only [list_activities_go]
  have hok : (strava_get (provider ae pp page) 4).1 = .ok (.jother t) := by
    rw [strava_get_ok_of_200 (provider ae pp page) (by rw [hbody 0]), hbody 0]
  rw [hok]
  cases t
  · simp [Jx.falsy]
  · simp [Jx.falsy]

/-- C8 (amended).  At any point of pagination — after any prefix of
non-empty list pages `1 .. k-1` — a *truthy* non-list body on page `k`
makes `list_activities_since` fail with `ProtocolError`, and a
non-list body is never treated as data; but a *falsy* non-list body
(empty dict, `null`, `""`, `0`) on page `k` is silently treated as end
of pagination, returning the records collected so far (the
concatenation of pages `1 .. k-1`). -/
theorem c8_nonlist_body (provider : PageOracle) (ae pp : Int) (t : Bool)
    (pages : Nat → List RawActivity) (k : Nat) (hk : 1 ≤ k)
    (hlist : ∀ p att, p < k → provider ae pp p att = ⟨200, .jlist (pages p)⟩)
    (hnon : ∀ i, 1 ≤ i → i < k → pages i ≠ [])
    (hbody : ∀ att, provider ae pp k att = ⟨200, .jother t⟩) :
    ∀ fuel, k ≤ fuel →
      list_activities_since provider ae pp fuel
        = some (if t then .error .protocolError
                else .ok (((List.range (k - 1)).map (fun u => pages (1 + u))).flatten)) := by
  intro fuel hfuel
  unfold list_activities_since
  rw [list_activities_go_skip_pages provider ae pp pages (k - 1) 1 [] fuel (by omega)
    (fun p att hp1 hp2 => hlist p att (by omega))
    (fun i hi1 hi2 => hnon i hi1 (by omega))]
  rw [show 1 + (k - 1) = k from by omega]
  obtain ⟨f, hf⟩ : ∃ f, fuel - (k - 1) = f + 1 := ⟨fuel - (k - 1) - 1, by omega⟩
  rw [hf]
  rw [list_activities_go_nonlist provider ae pp k t _ f hbody]
  cases t
  · simp
  · simp

/-- C8 witness: after one non-empty page, a truthy non-list body on
page 2 raises the protocol error, while a falsy non-list body on
page 2 ends pagination returning exactly the records of page 1. -/
theorem c8_nonlist_body_witness :
    list_activities_since c8_provider_truthy 100 30 4
      = some (.error IngestError.protocolError) ∧
    list_activities_since c8_provider_falsy 100 30 4
      = some (.ok [RawActivity.mk0 41 (some 5)]) := by
  constructor
  · have h := c8_nonlist_body c8_provider_truthy 100 30 true c8_pages 2 (by omega)
      (fun p att hp => by interval_cases p <;> rfl)
      (fun i h1 h2 => by interval_cases i <;> decide)
      (fun att => rfl) 4 (by omega)
    rw [h]
    decide
  · have h := c8_nonlist_body c8_provider_falsy 100 30 false c8_pages 2 (by omega)
      (fun p att hp => by interval_cases p <;> rfl)
      (fun i h1 h2 => by interval_cases i <;> decide)
      (fun att => rfl) 4 (by omega)
    rw [h]
    decide

/-! Claim C9. -/

theorem baseRows_cons_none (x : ActivityRow) (rest : List ActivityRow)
    (hsd : x.start_date = none) : baseRows (x :: rest) = baseRows rest := by
  simp [baseRows, List.filterMap_cons, hsd]

theorem baseRows_cons_some (x : ActivityRow) (rest : List ActivityRow) (sd : Int)
    (hsd : x.start_date = some sd) :
    baseRows (x :: rest)
      = ⟨x.activity_id, x.athlete_id, sd, x.moving_time, x.distance_m,
          x.total_elevation_gain_m⟩ :: baseRows rest := by
  simp [baseRows, List.filterMap_cons, hsd]

theorem windowFrame_baseRows_map (r : BaseRow) (w : Int)
    (g : BaseRow → Option Int) (G : ActivityRow → Option Int)
    (hg : ∀ (x : ActivityRow) (sd : Int),
      g ⟨x.activity_id, x.athlete_id, sd, x.moving_time, x.distance_m,
          x.total_elevation_gain_m⟩ = G x) :
    ∀ acts : List ActivityRow,
      (windowFrame (baseRows acts) r w).map g
        = (acts.filter (fun x => x.athlete_id == r.athlete_id &&
            (match x.start_date with
             | some s => decide (r.start_date - w ≤ s) && decide (s ≤ r.start_date)
             | none => false))).map G := by
  intro acts
  induction acts with
  | nil => rfl
  | cons x rest ih =>
    rw [List.filter_cons]
    cases hsd : x.start_date with
    | none =>
      rw [baseRows_cons_none x rest hsd]
      simp only [Bool.and_false, Bool.false_eq_true, if_false]
      exact ih
    | some sd =>
      rw [baseRows_cons_some x rest sd hsd]
      unfold windowFrame
      rw [List.filter_cons]
      dsimp only
      by_cases hcond : (x.athlete_id == r.athlete_id &&
          (decide (r.start_date - w ≤ sd) && decide (sd ≤ r.start_date))) = true
      · have hcond2 : ((x.athlete_id == r.athlete_id && decide (r.start_date - w ≤ sd)) &&
            decide (sd ≤ r.start_date)) = true := by
          rw [Bool.and_assoc]
          exact hcond
        rw [if_pos hcond2, if_pos hcond, List.map_cons, List.map_cons, hg x sd]
        unfold windowFrame at ih
        rw [ih]
      · have hcond2 : ¬ ((x.athlete_id == r.athlete_id && decide (r.start_date - w ≤ sd)) &&
            decide (sd ≤ r.start_date)) = true := by
          rw [Bool.and_assoc]
          exact hcond
        rw [if_neg hcond2, if_neg hcond]
        unfold windowFrame at ih
        exact ih

/-- C9.  For every activity table and every base row `r` (an activity
of some athlete with non-null start time `T = r.start_date`), the
7-day rolling window aggregates of `FEATURE_SQL` — `dist_7d_m`,
`elev_7d_m`, `time_7d_s` — each equal the SQL sum of the corresponding
measurement over exactly the same athlete's activities whose start
time lies in `[T - 7 days, T]`, inclusive of `T` itself; and the
window frame contains only rows of `r`'s athlete, so other athletes'
activities contribute nothing. -/
theorem c9_rolling_7d (acts : List ActivityRow) (r : BaseRow) (hr : r ∈ baseRows acts) :
    dist_7d_m (baseRows acts) r
        = specRolling7 acts r.athlete_id r.start_date (fun x => x.distance_m) ∧
    elev_7d_m (baseRows acts) r
        = specRolling7 acts r.athlete_id r.start_date (fun x => x.total_elevation_gain_m) ∧
    time_7d_s (baseRows acts) r
        = specRolling7 acts r.athlete_id r.start_date (fun x => x.moving_time) ∧
    ∀ x ∈ windowFrame (baseRows acts) r sevenDays, x.athlete_id = r.athlete_id := by
  refine ⟨?_, ?_, ?_, ?_⟩
  · unfold dist_7d_m specRolling7
    exact congrArg sqlSum
      (windowFrame_baseRows_map r sevenDays (fun b => b.distance_m)
        (fun x => x.distance_m) (fun x sd => rfl) acts)
  · unfold elev_7d_m specRolling7
    exact congrArg sqlSum
      (windowFrame_baseRows_map r sevenDays (fun b => b.elevation_gain_m)
        (fun x => x.total_elevation_gain_m) (fun x sd => rfl) acts)
  · unfold time_7d_s specRolling7
    exact congrArg sqlSum
      (windowFrame_baseRows_map r sevenDays (fun b => b.moving_time_s)
        (fun x => x.moving_time) (fun x sd => rfl) acts)
  · intro x hx
    unfold windowFrame at hx
    have hx2 := (List.mem_filter.mp hx).2
    simp only [Bool.and_eq_true, beq_iff_eq] at hx2
    exact hx2.1.1

/-- C9 witness: for athlete 1's activity at epoch 700000 in a table
with two athletes, the rolling sums equal the window sums, other
athletes contribute nothing, and the distance sum evaluates to 17
(the activities at 700000 and 200000; the one at 95000 is outside the
window and athlete 2's is excluded). -/
theorem c9_rolling_7d_witness :
    (dist_7d_m (baseRows c9_acts) ⟨101, 1, 700000, some 60, some 10, some 3⟩
        = specRolling7 c9_acts 1 700000 (fun x => x.distance_m)) ∧
    (dist_7d_m (baseRows c9_acts) ⟨101, 1, 700000, some 60, some 10, some 3⟩ = some 17) := by
  constructor
  · exact (c9_rolling_7d c9_acts ⟨101, 1, 700000, some 60, some 10, some 3⟩ (by decide)).1
  · decide

/-! Claim C10. -/

theorem storedRefreshToken_ingest_pre (db : DB) (td : TokenData) (ath : AthleteData)
    (rt : String) (now : Nat) :
    storedRefreshToken (ingest_pre db td ath rt now) ath.id
      = some (pyOrStr td.refresh_token rt) := by
  unfold storedRefreshToken ingest_pre db_upsert_tokens
  simp only
  rw [find?_upsertBy _ _ _ (by simp)]
  rfl

theorem storedRefreshToken_congr {db1 db2 : DB} (h : db1.tokens = db2.tokens) (aid : Int) :
    storedRefreshToken db1 aid = storedRefreshToken db2 aid := by
  unfold storedRefreshToken
  rw [h]

/-- C10.  For every successful run of `ingest_one_athlete` whose
token-refresh response carries an absent, null, or empty
`refresh_token` field, the refresh credential persisted in the token
row of the synced athlete is exactly the previously used one — it is
never overwritten with a null or empty value; and, for every
token-refresh response, the summary's `used_refresh_token_changed`
flag is true exactly when the persisted refresh credential differs
from the one used for the refresh. -/
theorem c10_refresh_token_preserved {db : DB} {env : AthleteEnv} {hint : Option Int}
    {rt : String} {pp ad : Int} {now fuel : Nat} {db' : DB} {s : Summary} {td : TokenData}
    (htok : env.tokenResp = .ok td)
    (hrun : ingest_one_athlete db env hint rt pp ad now fuel = some (.ok (db', s))) :
    ((td.refresh_token = none ∨ td.refresh_token = some "") →
      storedRefreshToken db' s.athlete_id = some rt) ∧
    (s.used_refresh_token_changed = true ↔ storedRefreshToken db' s.athlete_id ≠ some rt) := by
  obtain ⟨td2, ath, as, htok2, _hath, _hfetch, heq⟩ := ingest_ok_inv hrun
  have htd : td = td2 := by
    rw [htok] at htok2
    exact Except.ok.injEq _ _ ▸ htok2
  subst htd
  have hdb := congrArg Prod.fst heq
  have hs := congrArg Prod.snd heq
  simp only at hdb hs
  rw [ingest_post_summary] at hs
  have haid : s.athlete_id = ath.id := by rw [hs]
  have hch : s.used_refresh_token_changed = (pyOrStr td.refresh_token rt != rt) := by
    rw [hs]
  have hstored : storedRefreshToken db' s.athlete_id = some (pyOrStr td.refresh_token rt) := by
    rw [haid, hdb,
      storedRefreshToken_congr (tokens_ingest_post (ingest_pre db td ath rt now) ath.id
        (db_get_last_after_epoch (ingest_pre db td ath rt now) ath.id ad) as now
        (td.expires_at.getD 0) td.scope (pyOrStr td.refresh_token rt != rt)) ath.id]
    exact storedRefreshToken_ingest_pre db td ath rt now
  constructor
  · intro habs
    rw [hstored]
    rcases habs with h0 | h0 <;> rw [h0] <;> rfl
  · rw [hstored, hch]
    constructor
    · intro hbne
      have : pyOrStr td.refresh_token rt ≠ rt := by
        simpa using hbne
      simpa using this
    · intro hne
      have : pyOrStr td.refresh_token rt ≠ rt := by
        intro hcontra
        exact hne (by rw [hcontra])
      simpa using this

/-- C10 witness: a refresh response with an absent `refresh_token`
keeps the stored credential "rt" and reports
`used_refresh_token_changed = false`. -/
theorem c10_refresh_token_preserved_witness :
    ∃ db' s, ingest_one_athlete c10_db c10_env none "rt" 50 0 5 10 = some (.ok (db', s)) ∧
      storedRefreshToken db' s.athlete_id = some "rt" ∧
      s.used_refresh_token_changed = false := by
  refine ⟨_, _, rfl, ?_, ?_⟩
  · exact (@c10_refresh_token_preserved c10_db c10_env none "rt" 50 0 5 10 _ _ _
      rfl (by rfl)).1 (Or.inl rfl)
  · have h := (@c10_refresh_token_preserved c10_db c10_env none "rt" 50 0 5 10 _ _ _
      rfl (by rfl)).2
    have hstored := (@c10_refresh_token_preserved c10_db c10_env none "rt" 50 0 5 10 _ _ _
      rfl (by rfl)).1 (Or.inl rfl)
    by_contra hne
    have htrue : _ = true := Bool.eq_true_of_ne_false (fun hf => hne hf)
    exact (h.mp htrue) (by rw [hstored])

end Trail
